import Mathlib

/-!
Shallow embedding of `json-pdf.py`, a converter from Telegram JSON chat
exports to a styled PDF document.  The embedding covers the conversation
normalization and layout-block assembly pipeline: date formatting
(`format_date_inside`, `format_date_name`), the time-range scan
(`get_time_borders`), the content normalizer (`check_message`), the two
layout loops (`PersonalChatJsonPdf.make_pdf`, `PrivateGroupJsonPdf.make_pdf`),
the existence guard (`check_if_pdf_exists`) and the chat-kind dispatcher
(`ChooseJson.determine_type_of_chat`).  Python strings are modelled as Lean
`String`; machine-level concerns (fonts, page geometry, the reportlab
renderer) are out of scope, matching the layout-block abstraction: each
appended flowable becomes a `LayoutBlock`.
-/

namespace JsonToPdf

/-! ## Decimal rendering of numbers (model of CPython number formatting)

The source formats years and day numbers through `strftime`, which renders
nonnegative integers in decimal.  `natRepr` is the decimal rendering,
defined with explicit fuel so that it evaluates inside the kernel;
`msdDigits` is the fuel-free description used in proofs. -/

/-- Fuel-driven most-significant-digit-first decimal digits of `n`,
accumulated onto `acc`. -/
def digitsAux : Nat → Nat → List Char → List Char
  | 0, _, acc => acc
  | fuel + 1, n, acc =>
    if n < 10 then Nat.digitChar n :: acc
    else digitsAux fuel (n / 10) (Nat.digitChar (n % 10) :: acc)

/-- Decimal digit list of `n`, most significant digit first. -/
def msdDigits (n : Nat) : List Char :=
  if n < 10 then [Nat.digitChar n]
  else msdDigits (n / 10) ++ [Nat.digitChar (n % 10)]
  termination_by n
  decreasing_by exact Nat.div_lt_self (by omega) (by omega)

/-- Decimal rendering of a natural number, as produced by `strftime`
(`%Y` on a year, `%e`/`%d` digits on a day). -/
def natRepr (n : Nat) : String :=
  String.mk (digitsAux (n + 1) n [])

/-- Reads a most-significant-first digit list back into a number. -/
def parseDigits (l : List Char) : Nat :=
  l.foldl (fun a c => 10 * a + (c.toNat - 48)) 0

/-! ## The data model

`Timestamp` models a parsed ISO-8601 `date` field of a message
(`datetime.fromisoformat`): calendar day plus a time-of-day, compared
lexicographically, which agrees with the lexicographic string comparison
the source uses on ISO-8601 strings.  `time` is the second within the day. -/

structure Timestamp where
  year : Nat
  month : Nat
  day : Nat
  time : Nat
deriving DecidableEq, Repr

/-- Chronological (lexicographic) order on timestamps; mirrors `<`/`>`
comparisons of ISO-8601 date strings in `get_time_borders`. -/
def tsLe (a b : Timestamp) : Prop :=
  a.year < b.year ∨ (a.year = b.year ∧
    (a.month < b.month ∨ (a.month = b.month ∧
      (a.day < b.day ∨ (a.day = b.day ∧ a.time ≤ b.time)))))

/-- Strict chronological order, the `current_date < earliest_date`
comparison of `get_time_borders`. -/
def tsLt (a b : Timestamp) : Prop :=
  a.year < b.year ∨ (a.year = b.year ∧
    (a.month < b.month ∨ (a.month = b.month ∧
      (a.day < b.day ∨ (a.day = b.day ∧ a.time < b.time)))))

instance (a b : Timestamp) : Decidable (tsLe a b) := by unfold tsLe; infer_instance
instance (a b : Timestamp) : Decidable (tsLt a b) := by unfold tsLt; infer_instance

/-- The calendar-day part of a timestamp, the value that day-grouping keys on. -/
def dayTriple (t : Timestamp) : Nat × Nat × Nat := (t.year, t.month, t.day)

/-- A date is valid when its calendar fields are in ISO range. -/
def validDate (t : Timestamp) : Prop :=
  1 ≤ t.month ∧ t.month ≤ 12 ∧ 1 ≤ t.day ∧ t.day ≤ 31

instance (t : Timestamp) : Decidable (validDate t) := by unfold validDate; infer_instance

/-! ## Date formatting (`format_date_inside`, `format_date_name`) -/

/-- English month name, the `%B` field of `strftime` under the
`en_US.UTF-8` locale set in the source. -/
def monthName : Nat → String
  | 1 => "January"
  | 2 => "February"
  | 3 => "March"
  | 4 => "April"
  | 5 => "May"
  | 6 => "June"
  | 7 => "July"
  | 8 => "August"
  | 9 => "September"
  | 10 => "October"
  | 11 => "November"
  | 12 => "December"
  | _ => ""

/-- Day of month rendered by `%e`: space-padded to two characters. -/
def padDay (d : Nat) : String :=
  if d < 10 then " " ++ natRepr d else natRepr d

/-- Two-digit zero padding, the `%d` and `%m` fields of `strftime`. -/
def pad2 (n : Nat) : String :=
  if n < 10 then "0" ++ natRepr n else natRepr n

/-- `JsonPdf.format_date_inside`: `strftime` with format `%e %B %Y`
(day, full month name, year), the day-label used for date separators. -/
def format_date_inside (t : Timestamp) : String :=
  padDay t.day ++ " " ++ monthName t.month ++ " " ++ natRepr t.year

/-- `JsonPdf.format_date_name`: `strftime` with format `%d.%m.%Y`,
used in the output file name. -/
def format_date_name (t : Timestamp) : String :=
  pad2 t.day ++ "." ++ pad2 t.month ++ "." ++ natRepr t.year

/-! ## The content normalizer (`JsonPdf.check_message`) -/

/-- Model of the `emoji` library pictograph test, at codepoint granularity:
a character counts as an emoji when it lies in the main pictographic
Unicode ranges. -/
def isEmojiChar (c : Char) : Bool :=
  (0x1F000 ≤ c.toNat && c.toNat ≤ 0x1FAFF) ||
  (0x2600 ≤ c.toNat && c.toNat ≤ 0x27BF) ||
  (0xFE00 ≤ c.toNat && c.toNat ≤ 0xFE0F)

/-- Character-wise effect of `str.replace` with pattern `\n` and
replacement `<br/><br/>`. -/
def substNewline (c : Char) : List Char :=
  if c = '\n' then "<br/><br/>".data else [c]

/-- Character-wise effect of `emoji.replace_emoji(result, "(EMOJI)")`,
modelled at codepoint granularity. -/
def substEmoji (c : Char) : List Char :=
  if isEmojiChar c then "(EMOJI)".data else [c]

/-- Applies a character-to-string substitution to every character. -/
def expand (f : Char → List Char) : List Char → List Char
  | [] => []
  | c :: l => f c ++ expand f l

/-- `JsonPdf.check_message`: replaces line breaks with paragraph-break
markup, then replaces pictographs with the `(EMOJI)` placeholder. -/
def check_message (s : String) : String :=
  String.mk (expand substEmoji (expand substNewline s.data))

/-! ## Python string primitives -/

/-- `str.upper` (modelled for the ASCII letters). -/
def pyUpper (s : String) : String := String.mk (s.data.map Char.toUpper)

/-- `str.lower` (modelled for the ASCII letters). -/
def pyLower (s : String) : String := String.mk (s.data.map Char.toLower)

/-- The slice `s[1:]`: everything after the first character. -/
def pyDropOne (s : String) : String := String.mk (s.data.drop 1)

/-- `sep.join(parts)`. -/
def joinWith (sep : String) : List String → String
  | [] => ""
  | [x] => x
  | x :: y :: xs => x ++ sep ++ joinWith sep (y :: xs)

/-- Whether `needle` is an initial run of `hay`. -/
def beginsWithChars : List Char → List Char → Bool
  | [], _ => true
  | _ :: _, [] => false
  | a :: as, b :: bs => a = b && beginsWithChars as bs

/-- Whether `needle` occurs contiguously anywhere inside `hay`
(Python's `needle in hay` on strings). -/
def hasSubChars (needle : List Char) : List Char → Bool
  | [] => beginsWithChars needle []
  | c :: l => beginsWithChars needle (c :: l) || hasSubChars needle l

/-! ## Message payloads -/

/-- One entry of a rich `text` list: either a bare string or a dict with a
`type` tag.  Dicts with an unrecognized tag are kept as `unknownPart`
(the source skips them). -/
inductive TextPart
  | plainPart (s : String)
  | mention (text : String)
  | link (text : String)
  | textLink (text href : String)
  | unknownPart (type : String)
deriving DecidableEq, Repr

/-- The `text` field of a message: a plain string or a list of parts. -/
inductive TextContent
  | plain (s : String)
  | rich (parts : List TextPart)
deriving DecidableEq, Repr

/-- Renders one part of a rich text list, per the per-part branches of
both `make_pdf` loops (lines 225-239 and 353-367 of the source). -/
def renderPart : TextPart → String
  | .plainPart s => s
  | .mention t =>
      "<a href=\"https://t.me/" ++ pyLower (pyDropOne t) ++
        "\" color=grey underline=True>" ++ t ++ "</a>"
  | .link t =>
      "<a href=\"" ++ t ++ "\" color=grey underline=True>" ++ t ++ "</a>"
  | .textLink t href =>
      "<a href=\"" ++ href ++ "\" color=grey underline=True>" ++ t ++ "</a>"
  | .unknownPart _ => ""

/-- The `message_result` accumulator of the rich-text branch: the parts
rendered and concatenated in order. -/
def renderRich (parts : List TextPart) : String :=
  joinWith "" (parts.map renderPart)

/-- The normalizer input chosen by the `isinstance(message["text"], list)`
branch of both loops: the raw string, or the concatenated rendered parts. -/
def contentText : TextContent → String
  | .plain s => s
  | .rich ps => renderRich ps

/-- Python `repr` of one rich-text entry, as interpolated by an f-string
(modelled for the common segment shapes, without escaping). -/
def segmentRepr : TextPart → String
  | .plainPart s => "\x27" ++ s ++ "\x27"
  | .mention t => "\x7b\x27type\x27: \x27mention\x27, \x27text\x27: \x27" ++ t ++ "\x27\x7d"
  | .link t => "\x7b\x27type\x27: \x27link\x27, \x27text\x27: \x27" ++ t ++ "\x27\x7d"
  | .textLink t href =>
      "\x7b\x27type\x27: \x27text_link\x27, \x27text\x27: \x27" ++ t ++
        "\x27, \x27href\x27: \x27" ++ href ++ "\x27\x7d"
  | .unknownPart ty => "\x7b\x27type\x27: \x27" ++ ty ++ "\x27\x7d"

/-- What `f"... {message['text']}"` interpolates: the string itself, or the
`repr` of the list. -/
def pyStr : TextContent → String
  | .plain s => s
  | .rich ps => "[" ++ joinWith ", " (ps.map segmentRepr) ++ "]"

/-! ## Messages and conversations -/

/-- One message record of the export.  `fromField` is the `from` key,
`actor` the `actor` key; either may be absent (`None` here), which the
source handles by `KeyError` fallback.  `hasPhoto`/`hasVideo`/`hasAudio`
model the presence of the `photo`/`video`/`audio` attachment keys tested
with `'photo' in list(message)`. -/
structure Message where
  date : Timestamp
  type : String
  fromField : Option String := none
  actor : Option String := none
  action : Option String := none
  members : List String := []
  text : TextContent := .plain ""
  media_type : Option String := none
  hasPhoto : Bool := false
  hasVideo : Bool := false
  hasAudio : Bool := false
deriving DecidableEq, Repr

/-- The loaded export: `data['name']`, `data['type']`, `data['messages']`. -/
structure Conversation where
  name : String
  type : String
  messages : List Message
deriving DecidableEq, Repr

/-- A conversation is valid when it has at least one message and every
message carries an in-range calendar date. -/
def validConversation (conv : Conversation) : Prop :=
  conv.messages ≠ [] ∧ ∀ m ∈ conv.messages, validDate m.date

instance (conv : Conversation) : Decidable (validConversation conv) := by
  unfold validConversation; infer_instance

/-- Messages listed in chronological order, as the export provides them. -/
def chronological (msgs : List Message) : Prop :=
  List.Pairwise (fun a b => tsLe a.date b.date) msgs

instance (msgs : List Message) : Decidable (chronological msgs) := by
  unfold chronological; infer_instance

/-! ## Layout blocks

Each flowable appended to the `story` list becomes a `LayoutBlock`.  The
`styleOf` table records which style string of `JsonPdf.style` each block
kind is rendered with; in particular `actorHeader` (the deduplicated bare
actor name of lines 325-333) and `serviceNotice` (the invite/join notices
of lines 314-323) are distinct block kinds that share the `actor_style`
presentation. -/

/-- Role tag of a Personal-kind message body: `self_message_style` or
`partner_message_style`. -/
inductive RoleTag
  | selfTag
  | partnerTag
deriving DecidableEq, Repr

inductive LayoutBlock
  | title (text : String)
  | spacer (height : Nat)
  | hr
  | periodLabel (text : String)
  | dateSeparator (text : String)
  | messageBody (tag : RoleTag) (text : String)
  | actorHeader (text : String)
  | serviceNotice (text : String)
  | actorMessage (text : String)
deriving DecidableEq, Repr

/-- The style string each block kind is rendered with by `JsonPdf.style`
(empty for the non-paragraph flowables `Spacer` and `HRFlowable`). -/
def styleOf : LayoutBlock → String
  | .title _ => "title"
  | .spacer _ => ""
  | .hr => ""
  | .periodLabel _ => "period"
  | .dateSeparator _ => "date_style"
  | .messageBody .selfTag _ => "self_message"
  | .messageBody .partnerTag _ => "partner_message"
  | .actorHeader _ => "actor_style"
  | .serviceNotice _ => "actor_style"
  | .actorMessage _ => "actor_message_style"

/-! ## Time borders (`JsonPdf.get_time_borders`) and derived labels -/

/-- `JsonPdf.get_time_borders`: single scan for the minimum and maximum
message timestamp; starts from `None`/`None` and never fails. -/
def get_time_borders (msgs : List Message) : Option Timestamp × Option Timestamp :=
  msgs.foldl
    (fun acc m =>
      (match acc.1 with
        | none => some m.date
        | some e => if tsLt m.date e then some m.date else some e,
       match acc.2 with
        | none => some m.date
        | some l => if tsLt l m.date then some m.date else some l))
    (none, none)

/-- Earliest timestamp of the conversation.  For an empty conversation the
source faults (`format_date_inside(None)` raises); the default timestamp
stands in for that unreachable case. -/
def story_earliest (conv : Conversation) : Timestamp :=
  ((get_time_borders conv.messages).1).getD ⟨0, 0, 0, 0⟩

/-- Latest timestamp of the conversation; see `story_earliest` on the
empty case. -/
def story_latest (conv : Conversation) : Timestamp :=
  ((get_time_borders conv.messages).2).getD ⟨0, 0, 0, 0⟩

/-- `self.time_period_inside`: long-form range label shown below the title. -/
def time_period_inside (conv : Conversation) : String :=
  format_date_inside (story_earliest conv) ++ " — " ++
    format_date_inside (story_latest conv)

/-- `self.time_period_name`: `dd.mm.yyyy` range used in the artifact name. -/
def time_period_name (conv : Conversation) : String :=
  format_date_name (story_earliest conv) ++ " — " ++
    format_date_name (story_latest conv)

/-! ## The Personal-kind layout pieces -/

/-- `JsonPdf.media_types`, the bracketed placeholder table. -/
def media_types : String → String
  | "voice_message" => "(VOICE MESSAGE)"
  | "video_message" => "(VIDEO MESSAGE)"
  | "video" => "(VIDEO)"
  | "photo" => "(PHOTO)"
  | "sticker" => "(STICKER)"
  | "other" => "(OTHER)"
  | "call" => "(CALL)"
  | _ => ""

/-- `PersonalChatJsonPdf.choose_role_tag`: a sender equal to the
conversation name is styled as the partner, anyone else as self. -/
def choose_role_tag (convName messageText name : String) : LayoutBlock :=
  if name = convName then .messageBody .partnerTag messageText
  else .messageBody .selfTag messageText

/-- Sender resolution of the Personal loop: `message['from']`, falling
back to `message['actor']` when the `from` key is absent (the
`try/except KeyError` of lines 241-250).  When both keys are absent the
source faults; the empty string stands in for that unreachable case. -/
def resolve_sender (m : Message) : String :=
  match m.fromField with
  | some f => f
  | none => m.actor.getD ""

/-- The blocks the Personal loop emits for one message after the date
check: the `(CALL)` placeholder for `phone_call` service events (line
219-220), then the role-tagged normalized text (lines 222-250). -/
def personalBody (convName : String) (m : Message) : List (Option LayoutBlock) :=
  (if m.type = "service" ∧ m.action = some "phone_call"
   then [some (choose_role_tag convName (media_types "call") (m.actor.getD ""))]
   else [])
  ++ [some (choose_role_tag convName (check_message (contentText m.text)) (resolve_sender m))]

/-! ## The Group-kind layout pieces -/

/-- Display form of a Group actor header: `check_message(name.upper())`
(lines 327 and 332). -/
def renderHeader (a : String) : String := check_message (pyUpper a)

/-- The actor the header-suppression logic keys on for a message: the
`actor` key when present, else the `from` key. -/
def headerCandidate (m : Message) : String :=
  if m.actor.isSome then m.actor.getD "" else m.fromField.getD ""

/-- Lines 314-333 of the Group loop: service notices for invite/create
(`','.upper().join(members)` upper-cases the separator, leaving the member
names unchanged) and join-by-link, else a deduplicated actor header.  The
comparison against `previous_actor` uses the raw field value; only a
header emission updates it. -/
def groupActorPart (prevActor : Option String) (m : Message) :
    List (Option LayoutBlock) × Option String :=
  if m.type = "service" ∧ (m.action = some "invite_members" ∨ m.action = some "create_group") then
    ([some (.serviceNotice (check_message
        (pyUpper (m.actor.getD "") ++ " invited " ++ joinWith "," m.members)))],
     prevActor)
  else if m.type = "service" ∧ m.action = some "join_group_by_link" then
    ([some (.serviceNotice (pyUpper (m.actor.getD "") ++ " joined"))], prevActor)
  else if m.actor.isSome then
    (if m.actor ≠ prevActor
     then ([some (.actorHeader (renderHeader (m.actor.getD "")))], m.actor)
     else ([], prevActor))
  else
    (if m.fromField ≠ prevActor
     then ([some (.actorHeader (renderHeader (m.fromField.getD "")))], m.fromField)
     else ([], prevActor))

/-- Lines 336-373 of the Group loop: for ordinary messages, an extra
tagged block when a `photo`/`video`/`audio` attachment key is present
(the f-string keeps a space after the tag even for an empty caption),
then the normalized text body.  The `media_type` field is not consulted. -/
def groupMediaText (m : Message) : List (Option LayoutBlock) :=
  if m.type = "message" then
    (if m.hasPhoto then
       [some (.actorMessage (check_message ("(PHOTO) " ++ pyStr m.text)))]
     else if m.hasVideo then
       [some (.actorMessage (check_message ("(VIDEO) " ++ pyStr m.text)))]
     else if m.hasAudio then
       [some (.actorMessage (check_message ("(AUDIO) " ++ pyStr m.text)))]
     else [])
    ++ [some (.actorMessage (check_message (contentText m.text)))]
  else []

/-- One Group-loop step after the date check: actor/service handling, then
the message body; threads the `previous_actor` state. -/
def groupBodyStep (prevActor : Option String) (m : Message) :
    List (Option LayoutBlock) × Option String :=
  ((groupActorPart prevActor m).1 ++ groupMediaText m, (groupActorPart prevActor m).2)

/-! ## The shared date-separator loop -/

/-- The four flowables lines 205-215 (and 299-309) append when the
day-label changes: spacer, rule, the grey date line, rule. -/
def dateBanner (t : Timestamp) : List (Option LayoutBlock) :=
  [some (.spacer 30), some .hr,
   some (.dateSeparator ("— " ++ format_date_inside t ++ " —")), some .hr]

/-- The message loop shared by both `make_pdf` methods: per message, the
date banner when the day-label differs from `previous_date`, then the
kind-specific body (`body` is instantiated with `personalBody` or
`groupBodyStep`; the Personal body carries no state). -/
def loopG {σ : Type} (body : σ → Message → List (Option LayoutBlock) × σ) :
    Option String → σ → List Message → List (Option LayoutBlock)
  | _, _, [] => []
  | prevDate, s, m :: rest =>
    (if some (format_date_inside m.date) = prevDate then [] else dateBanner m.date)
    ++ (body s m).1
    ++ loopG body (some (format_date_inside m.date)) (body s m).2 rest

/-- Specification-side variant of the loop, following the words of the
spec: the banner is emitted exactly when the day-label has not occurred
before (first-occurrence policy), tracking the set of labels seen. -/
def loopFirstOcc {σ : Type} (body : σ → Message → List (Option LayoutBlock) × σ) :
    List String → σ → List Message → List (Option LayoutBlock)
  | _, _, [] => []
  | seen, s, m :: rest =>
    (if format_date_inside m.date ∈ seen then [] else dateBanner m.date)
    ++ (body s m).1
    ++ loopFirstOcc body (format_date_inside m.date :: seen) (body s m).2 rest

/-- Wrapper fixing the Personal body into the loop shape. -/
def personalBodyStep (convName : String) :
    Unit → Message → List (Option LayoutBlock) × Unit :=
  fun _ m => (personalBody convName m, ())

/-! ## The two stories and the pipeline -/

/-- The `story` list `PersonalChatJsonPdf.make_pdf` hands to the renderer:
title, spacer, period label, then the message loop. -/
def personal_story (conv : Conversation) : List (Option LayoutBlock) :=
  [some (.title conv.name), some (.spacer 40),
   some (.periodLabel (time_period_inside conv))]
  ++ loopG (personalBodyStep conv.name) none () conv.messages

/-- The `story` list `PrivateGroupJsonPdf.make_pdf` hands to the renderer.
Line 292 reads `story.append(story.append(self.style(..., 'title')))`: the
inner `append` pushes the title and returns `None`, and the outer `append`
pushes that `None`, so the second entry of the story is `none`. -/
def group_story (conv : Conversation) : List (Option LayoutBlock) :=
  [some (.title conv.name), none, some (.spacer 40),
   some (.periodLabel (time_period_inside conv))]
  ++ loopG groupBodyStep none none conv.messages

/-- `JsonPdf.check_if_pdf_exists`: `not os.path.exists(path)`, with the
filesystem modelled as the list of existing paths. -/
def check_if_pdf_exists (files : List String) (path : String) : Bool :=
  !(decide (path ∈ files))

/-- The destination identifier
`{path_save}/JSONtoPDF/{name}/{name}, {time_period_name}.pdf`. -/
def pdf_path (path_save name period : String) : String :=
  path_save ++ "/JSONtoPDF/" ++ name ++ "/" ++ name ++ ", " ++ period ++ ".pdf"

/-- The path of the JSON copy placed next to the artifact. -/
def json_copy_path (path_save name period : String) : String :=
  path_save ++ "/JSONtoPDF/" ++ name ++ "/" ++ name ++ ", " ++ period ++ ".json"

/-- Result of one `make_pdf` run: either the story was built and the
artifact (plus the JSON copy) written, or the existence guard fired and
nothing was invoked. -/
inductive Outcome
  | rendered (story : List (Option LayoutBlock))
  | alreadyExists
deriving DecidableEq

/-- `PersonalChatJsonPdf.make_pdf` at the filesystem level: when the
artifact path is free the story is built, rendered and the two files
appear; otherwise the run reports the existing file and changes nothing. -/
def personal_make_pdf (conv : Conversation) (path_save : String)
    (files : List String) : List String × Outcome :=
  if check_if_pdf_exists files (pdf_path path_save conv.name (time_period_name conv)) then
    (files ++ [pdf_path path_save conv.name (time_period_name conv),
               json_copy_path path_save conv.name (time_period_name conv)],
     .rendered (personal_story conv))
  else (files, .alreadyExists)

/-- `PrivateGroupJsonPdf.make_pdf` at the filesystem level. -/
def group_make_pdf (conv : Conversation) (path_save : String)
    (files : List String) : List String × Outcome :=
  if check_if_pdf_exists files (pdf_path path_save conv.name (time_period_name conv)) then
    (files ++ [pdf_path path_save conv.name (time_period_name conv),
               json_copy_path path_save conv.name (time_period_name conv)],
     .rendered (group_story conv))
  else (files, .alreadyExists)

/-! ## The chat-kind dispatcher (`ChooseJson.determine_type_of_chat`) -/

/-- What the dispatcher does for a given `data['type']`.  The source has
no error branch: kinds other than the two supported ones hit a bare
`pass` (line 441-442). -/
inductive ChatDispatch
  | personal
  | privateGroup
  | ignored
deriving DecidableEq, Repr

/-- `ChooseJson.determine_type_of_chat`, keyed on `self.data['type']`. -/
def determine_type_of_chat (kind : String) : ChatDispatch :=
  if kind = "personal_chat" then .personal
  else if kind = "private_group" then .privateGroup
  else .ignored

/-! ## Block-sequence observations used by the properties -/

/-- The text of a date-separator block, when the entry is one. -/
def sepText : Option LayoutBlock → Option String
  | some (.dateSeparator t) => some t
  | _ => none

/-- The date-separator texts of a story, in order. -/
def sepTexts (story : List (Option LayoutBlock)) : List String :=
  story.filterMap sepText

/-- The text of an actor-header block, when the entry is one. -/
def headerText : Option LayoutBlock → Option String
  | some (.actorHeader t) => some t
  | _ => none

/-- The actor-header texts of a story, in order. -/
def headerTexts (story : List (Option LayoutBlock)) : List String :=
  story.filterMap headerText

/-- The text of a service-notice block, when the entry is one. -/
def noticeText : Option LayoutBlock → Option String
  | some (.serviceNotice t) => some t
  | _ => none

/-- The service-notice texts of a story, in order. -/
def noticeTexts (story : List (Option LayoutBlock)) : List String :=
  story.filterMap noticeText

/-- The distinct values of a list, each at its first occurrence, in
first-occurrence order; `seen` holds the values already encountered. -/
def firstOccAux {α : Type} [DecidableEq α] (seen : List α) : List α → List α
  | [] => []
  | a :: l => if a ∈ seen then firstOccAux (a :: seen) l else a :: firstOccAux (a :: seen) l

/-- The distinct values of a list in first-occurrence order. -/
def firstOcc {α : Type} [DecidableEq α] (l : List α) : List α :=
  firstOccAux [] l

/-- The service-notice text a single message gives rise to, if any:
invite/create events yield `"{ACTOR} invited {members joined with ','}"`
(members unchanged — the `.upper()` in line 317 is applied to the
separator), join-by-link events yield `"{ACTOR} joined"`. -/
def serviceNoticeOf (m : Message) : Option String :=
  if m.type = "service" ∧ (m.action = some "invite_members" ∨ m.action = some "create_group") then
    some (check_message (pyUpper (m.actor.getD "") ++ " invited " ++ joinWith "," m.members))
  else if m.type = "service" ∧ m.action = some "join_group_by_link" then
    some (pyUpper (m.actor.getD "") ++ " joined")
  else none

/-! ## Concrete sample inputs used by witnesses and counterexamples -/

/-- A one-message group conversation. -/
def sampleGroupConv : Conversation :=
  ⟨"G", "private_group",
   [{ date := ⟨2021, 3, 5, 36000⟩, type := "message", fromField := some "Ann",
      text := .plain "hi" }]⟩

/-- A personal conversation named `"Bob"` with one message from each
side, both on the same day. -/
def samplePersonalConv : Conversation :=
  ⟨"Bob", "personal_chat",
   [{ date := ⟨2021, 3, 5, 36000⟩, type := "message", fromField := some "Alice",
      text := .plain "hi" },
    { date := ⟨2021, 3, 5, 37000⟩, type := "message", fromField := some "Bob",
      text := .plain "hey" }]⟩

/-- A two-day personal conversation used to exercise the date-separator
invariant. -/
def sampleTwoDayConv : Conversation :=
  ⟨"Bob", "personal_chat",
   [{ date := ⟨2021, 3, 5, 36000⟩, type := "message", fromField := some "Alice",
      text := .plain "hi" },
    { date := ⟨2021, 3, 5, 37000⟩, type := "message", fromField := some "Bob",
      text := .plain "hey" },
    { date := ⟨2021, 3, 6, 100⟩, type := "message", fromField := some "Alice",
      text := .plain "bye" }]⟩

/-- A group conversation whose only event is a `create_group` service
message by `"Carol"` inviting `"Dan"` and `"Eve"`. -/
def sampleInviteConv : Conversation :=
  ⟨"G", "private_group",
   [{ date := ⟨2021, 3, 5, 36000⟩, type := "service", actor := some "Carol",
      action := some "create_group", members := ["Dan", "Eve"] }]⟩

/-- A group conversation with a sticker message: `media_type` is set but
no `photo`/`video`/`audio` attachment key is present, and the caption is
empty. -/
def sampleStickerConv : Conversation :=
  ⟨"G", "private_group",
   [{ date := ⟨2021, 3, 5, 36000⟩, type := "message", fromField := some "Ann",
      text := .plain "", media_type := some "sticker" }]⟩

/-- A group conversation with a photo message carrying caption `"cat"`. -/
def samplePhotoConv : Conversation :=
  ⟨"G", "private_group",
   [{ date := ⟨2021, 3, 5, 36000⟩, type := "message", fromField := some "Ann",
      text := .plain "cat", hasPhoto := true }]⟩

/-- A group conversation with two service messages (action
`pin_message`, so neither an invite nor a join) whose actors `"a"` and
`"A"` differ as raw strings but render to the same upper-cased header. -/
def sampleCaseCollisionConv : Conversation :=
  ⟨"G", "private_group",
   [{ date := ⟨2021, 3, 5, 36000⟩, type := "service", actor := some "a",
      action := some "pin_message" },
    { date := ⟨2021, 3, 5, 37000⟩, type := "service", actor := some "A",
      action := some "pin_message" }]⟩

/-- A group conversation with messages from two distinctly rendered
actors, alternating. -/
def sampleTwoActorConv : Conversation :=
  ⟨"G", "private_group",
   [{ date := ⟨2021, 3, 5, 36000⟩, type := "message", fromField := some "ann",
      text := .plain "one" },
    { date := ⟨2021, 3, 5, 37000⟩, type := "message", fromField := some "ann",
      text := .plain "two" },
    { date := ⟨2021, 3, 5, 38000⟩, type := "message", fromField := some "bob",
      text := .plain "three" }]⟩

end JsonToPdf

namespace JsonToPdf

/-! ## Arithmetic and string lemmas for the formatters -/

theorem digitsAux_eq_msdDigits :
    ∀ (fuel n : Nat) (acc : List Char), n < fuel →
      digitsAux fuel n acc = msdDigits n ++ acc := by
  intro fuel
  induction fuel with
  | zero => intro n acc h; omega
  | succ fuel ih =>
    intro n acc h
    rw [digitsAux, msdDigits.eq_def]
    by_cases h10 : n < 10
    · simp [h10]
    · have hdiv : n / 10 < fuel := by
        have : n / 10 < n := Nat.div_lt_self (by omega) (by omega)
        omega
      simp only [if_neg h10]
      rw [ih (n / 10) (Nat.digitChar (n % 10) :: acc) hdiv]
      simp

theorem parseDigits_msdDigits : ∀ n : Nat, parseDigits (msdDigits n) = n := by
  intro n
  induction n using Nat.strong_induction_on with
  | _ n ih =>
    rw [msdDigits.eq_def]
    by_cases h10 : n < 10
    · simp only [if_pos h10]
      interval_cases n <;> decide
    · simp only [if_neg h10]
      have hlt : n / 10 < n := Nat.div_lt_self (by omega) (by omega)
      have hrec := ih (n / 10) hlt
      unfold parseDigits at hrec ⊢
      rw [List.foldl_append, hrec]
      simp only [List.foldl_cons, List.foldl_nil]
      have hm : n % 10 < 10 := Nat.mod_lt _ (by omega)
      have hc : (Nat.digitChar (n % 10)).toNat - 48 = n % 10 := by
        interval_cases h : n % 10 <;> decide
      rw [hc]
      omega

theorem msdDigits_injective {a b : Nat} (h : msdDigits a = msdDigits b) : a = b := by
  have := parseDigits_msdDigits a
  rw [h, parseDigits_msdDigits] at this
  omega

theorem natRepr_eq_msdDigits (n : Nat) : natRepr n = String.mk (msdDigits n) := by
  unfold natRepr
  rw [digitsAux_eq_msdDigits (n + 1) n [] (by omega)]
  simp

theorem natRepr_injective {a b : Nat} (h : natRepr a = natRepr b) : a = b := by
  rw [natRepr_eq_msdDigits, natRepr_eq_msdDigits] at h
  exact msdDigits_injective (by injection h)

theorem padDay_length_two : ∀ d, d < 32 → (padDay d).length = 2 := by decide

theorem padDay_injective_below :
    ∀ d1, d1 < 32 → ∀ d2, d2 < 32 → padDay d1 = padDay d2 → d1 = d2 := by decide

theorem monthName_no_space : ∀ m, m < 13 → ' ' ∉ (monthName m).data := by decide

theorem monthName_injective_below :
    ∀ m1, m1 < 13 → ∀ m2, m2 < 13 → 1 ≤ m1 → 1 ≤ m2 →
      monthName m1 = monthName m2 → m1 = m2 := by decide

/-- Splitting a character list at the first occurrence of a character that
appears in neither of the left parts is unambiguous. -/
theorem append_cons_inj {c : Char} :
    ∀ (a b xs ys : List Char), c ∉ a → c ∉ b →
      a ++ c :: xs = b ++ c :: ys → a = b ∧ xs = ys := by
  intro a
  induction a with
  | nil =>
    intro b xs ys _ hb h
    cases b with
    | nil => simpa using h
    | cons z zs =>
      simp only [List.nil_append, List.cons_append, List.cons.injEq] at h
      exact absurd (show c ∈ z :: zs by simp [h.1]) hb
  | cons w ws ih =>
    intro b xs ys ha hb h
    cases b with
    | nil =>
      simp only [List.cons_append, List.nil_append, List.cons.injEq] at h
      exact absurd (show c ∈ w :: ws by simp [h.1]) ha
    | cons z zs =>
      simp only [List.cons_append, List.cons.injEq] at h
      obtain ⟨hw, htail⟩ := h
      have := ih zs xs ys (fun hx => ha (List.mem_cons_of_mem _ hx))
        (fun hx => hb (List.mem_cons_of_mem _ hx)) htail
      exact ⟨by simp [hw, this.1], this.2⟩

/-- Under valid calendar bounds the day-label formatter determines the
calendar day: distinct days always get distinct labels. -/
theorem format_date_inside_injective {t1 t2 : Timestamp}
    (h1 : validDate t1) (h2 : validDate t2)
    (h : format_date_inside t1 = format_date_inside t2) :
    dayTriple t1 = dayTriple t2 := by
  obtain ⟨hm1lo, hm1hi, hd1lo, hd1hi⟩ := h1
  obtain ⟨hm2lo, hm2hi, hd2lo, hd2hi⟩ := h2
  have hdata := congrArg String.data h
  simp only [format_date_inside, String.data_append] at hdata
  simp only [List.append_assoc, List.singleton_append] at hdata
  -- peel the two-character day field
  have hlen : ((padDay t1.day).data).length = ((padDay t2.day).data).length := by
    have e1 := padDay_length_two t1.day (by omega)
    have e2 := padDay_length_two t2.day (by omega)
    exact e1.trans e2.symm
  obtain ⟨hday, hrest⟩ := List.append_inj hdata hlen
  have hdayeq : t1.day = t2.day := by
    apply padDay_injective_below t1.day (by omega) t2.day (by omega)
    exact congrArg String.mk (by simpa using hday)
  -- peel the month name at the first space
  have hrest2 : (monthName t1.month).data ++ ' ' :: (natRepr t1.year).data =
      (monthName t2.month).data ++ ' ' :: (natRepr t2.year).data := by
    injection hrest
  obtain ⟨hmon, hyr⟩ := append_cons_inj _ _ _ _
    (monthName_no_space t1.month (by omega))
    (monthName_no_space t2.month (by omega)) hrest2
  have hmoneq : t1.month = t2.month := by
    apply monthName_injective_below t1.month (by omega) t2.month (by omega)
      (by omega) (by omega)
    exact congrArg String.mk (by simpa using hmon)
  have hyeq : t1.year = t2.year :=
    natRepr_injective (congrArg String.mk (by simpa using hyr))
  simp [dayTriple, hdayeq, hmoneq, hyeq]

/-- Chronological order is compatible with the calendar-day projection:
a timestamp sandwiched between two timestamps of the same day is on that
day as well. -/
theorem dayTriple_sandwich {a p m : Timestamp}
    (hap : tsLe a p) (hpm : tsLe p m) (heq : dayTriple a = dayTriple m) :
    dayTriple p = dayTriple m := by
  unfold tsLe at hap hpm
  unfold dayTriple at heq ⊢
  simp only [Prod.mk.injEq] at heq ⊢
  omega

/-! ## Normalizer lemmas -/

theorem expand_append (f : Char → List Char) (a b : List Char) :
    expand f (a ++ b) = expand f a ++ expand f b := by
  induction a with
  | nil => rfl
  | cons c l ih => simp [expand, ih]

theorem expand_id {f : Char → List Char} :
    ∀ {l : List Char}, (∀ c ∈ l, f c = [c]) → expand f l = l := by
  intro l
  induction l with
  | nil => intro _; rfl
  | cons c l ih =>
    intro h
    rw [expand, h c (by simp), ih fun d hd => h d (by simp [hd])]
    rfl

/-- A string with no line break and no pictograph passes through the
normalizer unchanged. -/
theorem check_message_clean {s : String}
    (hn : ∀ c ∈ s.data, c ≠ '\n') (he : ∀ c ∈ s.data, isEmojiChar c = false) :
    check_message s = s := by
  unfold check_message
  rw [expand_id (f := substNewline) fun c hc => by simp [substNewline, hn c hc]]
  rw [expand_id (f := substEmoji) fun c hc => by simp [substEmoji, he c hc]]

/-- The normalizer distributes over concatenation (it acts character by
character). -/
theorem check_message_append (a b : String) :
    check_message (a ++ b) = check_message a ++ check_message b := by
  unfold check_message
  have : (a ++ b).data = a.data ++ b.data := String.data_append a b
  rw [this, expand_append, expand_append]
  rfl

/-! ## C9: idempotence of the content normalizer on clean plain text -/

/-- C9 (confirmed).  For every plain-text string with no line breaks and
no pictographic characters, `check_message` is idempotent:
`check_message (check_message x) = check_message x`. -/
theorem c9_normalizer_idempotent (x : String)
    (hn : ∀ c ∈ x.data, c ≠ '\n') (he : ∀ c ∈ x.data, isEmojiChar c = false) :
    check_message (check_message x) = check_message x := by
  rw [check_message_clean hn he, check_message_clean hn he]

/-- Witness for C9 at the concrete clean string `"hello world"`. -/
theorem c9_normalizer_idempotent_witness :
    check_message (check_message "hello world") = check_message "hello world" :=
  c9_normalizer_idempotent "hello world" (by decide) (by decide)

/-! ## C2: unsupported conversation kind -/

/-- C2 counterexample.  The dispatcher maps the unsupported kind
`"saved_messages"` to `ignored` — a bare `pass`, not a fatal error — so
the claim that unsupported kinds are rejected with a named error rather
than silently ignored is false on the code. -/
theorem c2_unsupported_kind_counterexample :
    determine_type_of_chat "saved_messages" = ChatDispatch.ignored ∧
      "saved_messages" ≠ "personal_chat" ∧ "saved_messages" ≠ "private_group" := by
  exact ⟨rfl, by decide, by decide⟩

/-- C2 (amended).  Every kind other than the two supported ones is
silently ignored by `determine_type_of_chat`: the dispatcher does nothing
and raises no error. -/
theorem c2_unsupported_kind_ignored (kind : String)
    (h1 : kind ≠ "personal_chat") (h2 : kind ≠ "private_group") :
    determine_type_of_chat kind = ChatDispatch.ignored := by
  unfold determine_type_of_chat
  rw [if_neg h1, if_neg h2]

/-- Witness for the amended C2 at the concrete kind `"channel"`. -/
theorem c2_unsupported_kind_ignored_witness :
    determine_type_of_chat "channel" = ChatDispatch.ignored :=
  c2_unsupported_kind_ignored "channel" (by decide) (by decide)

/-! ## C6: the time-range scan on an empty conversation -/

theorem get_time_borders_some :
    ∀ (msgs : List Message) (e l : Timestamp), ∃ e2 l2,
      msgs.foldl
        (fun acc m =>
          (match acc.1 with
            | none => some m.date
            | some e => if tsLt m.date e then some m.date else some e,
           match acc.2 with
            | none => some m.date
            | some l => if tsLt l m.date then some m.date else some l))
        (some e, some l) = (some e2, some l2) := by
  intro msgs
  induction msgs with
  | nil => exact fun e l => ⟨e, l, rfl⟩
  | cons m rest ih =>
    intro e l
    rw [List.foldl_cons]
    by_cases h1 : tsLt m.date e <;> by_cases h2 : tsLt l m.date <;>
      simp only [h1, h2, if_true, if_false] <;> apply ih

/-- C6 counterexample.  On an empty message sequence the time-range scan
returns the value `(none, none)`; it does not fail, and no
`EmptyConversationError` exists anywhere in the source. -/
theorem c6_empty_borders_counterexample :
    get_time_borders [] = (none, none) := rfl

/-- C6 (amended).  `get_time_borders` returns `(none, none)` exactly on
the empty message sequence; any non-empty sequence produces two
timestamps.  (The constructor then faults on the `none` values when
formatting, an unnamed `TypeError`, not a named error.) -/
theorem c6_empty_borders_iff (msgs : List Message) :
    get_time_borders msgs = (none, none) ↔ msgs = [] := by
  constructor
  · intro h
    cases msgs with
    | nil => rfl
    | cons m rest =>
      exfalso
      unfold get_time_borders at h
      rw [List.foldl_cons] at h
      obtain ⟨e2, l2, hrest⟩ := get_time_borders_some rest m.date m.date
      simp only at h
      rw [hrest] at h
      exact absurd h (by simp)
  · intro h; subst h; rfl

/-- Witness for C6 applying the amended theorem at the empty list. -/
theorem c6_empty_borders_iff_witness : get_time_borders ([] : List Message) = (none, none) :=
  (c6_empty_borders_iff []).mpr rfl

/-! ## C8: the existence guard short-circuits rendering -/

/-- C8 (confirmed).  When the artifact already exists at the computed
destination, `make_pdf` stops before building the story and reports the
existing-file condition, leaving the file list unchanged; and running the
pipeline a second time against the same input and destination always
reports the existing file without changing anything.  (The non-emptiness
hypothesis keeps the statement on inputs that survive the constructor,
which faults on an empty conversation.) -/
theorem c8_existing_artifact_short_circuit (conv : Conversation)
    (path_save : String) (files : List String) (_hne : conv.messages ≠ []) :
    (pdf_path path_save conv.name (time_period_name conv) ∈ files →
       personal_make_pdf conv path_save files = (files, Outcome.alreadyExists)) ∧
    personal_make_pdf conv path_save (personal_make_pdf conv path_save files).1 =
      ((personal_make_pdf conv path_save files).1, Outcome.alreadyExists) := by
  constructor
  · intro hmem
    unfold personal_make_pdf
    rw [if_neg (by simp [check_if_pdf_exists, hmem])]
  · by_cases hmem : pdf_path path_save conv.name (time_period_name conv) ∈ files
    · have h1 : personal_make_pdf conv path_save files = (files, Outcome.alreadyExists) := by
        unfold personal_make_pdf
        rw [if_neg (by simp [check_if_pdf_exists, hmem])]
      rw [h1]
      unfold personal_make_pdf
      rw [if_neg (by simp [check_if_pdf_exists, hmem])]
    · have h1 : personal_make_pdf conv path_save files =
          (files ++ [pdf_path path_save conv.name (time_period_name conv),
                     json_copy_path path_save conv.name (time_period_name conv)],
           Outcome.rendered (personal_story conv)) := by
        unfold personal_make_pdf
        rw [if_pos (by simp [check_if_pdf_exists, hmem])]
      rw [h1]
      unfold personal_make_pdf
      rw [if_neg (by simp [check_if_pdf_exists])]

/-- Witness for C8 at a concrete conversation whose artifact is already
present in the filesystem. -/
theorem c8_existing_artifact_short_circuit_witness :
    personal_make_pdf samplePersonalConv "/save"
        [pdf_path "/save" "Bob" (time_period_name samplePersonalConv)] =
      ([pdf_path "/save" "Bob" (time_period_name samplePersonalConv)],
       Outcome.alreadyExists) :=
  (c8_existing_artifact_short_circuit samplePersonalConv "/save"
      [pdf_path "/save" "Bob" (time_period_name samplePersonalConv)]
      (by decide)).1 (by decide)

/-! ## C10: the stray `None` after the Group title -/

/-- C10 (confirmed).  Whenever the Group pipeline produces a document,
the emitted block sequence opens with the title block followed by a
`none` entry: line 292 appends the return value of `append` — `None` —
to the story, so the second element is not a well-formed layout block. -/
theorem c10_null_after_title (conv : Conversation) (path_save : String)
    (files fs2 : List String) (story : List (Option LayoutBlock))
    (_hne : conv.messages ≠ [])
    (h : group_make_pdf conv path_save files = (fs2, Outcome.rendered story)) :
    story.head? = some (some (LayoutBlock.title conv.name)) ∧ story[1]? = some none := by
  unfold group_make_pdf at h
  by_cases hc : check_if_pdf_exists files (pdf_path path_save conv.name (time_period_name conv)) = true
  · rw [if_pos hc] at h
    have hstory : story = group_story conv := by
      have := congrArg Prod.snd h
      simp only at this
      injection this with hs
      exact hs.symm
    subst hstory
    exact ⟨rfl, rfl⟩
  · rw [if_neg hc] at h
    have := congrArg Prod.snd h
    simp at this

/-- Witness for C10 on a concrete one-message group conversation run
against an empty filesystem. -/
theorem c10_null_after_title_witness :
    (group_story sampleGroupConv).head? =
        some (some (LayoutBlock.title sampleGroupConv.name)) ∧
      (group_story sampleGroupConv)[1]? = some none :=
  c10_null_after_title sampleGroupConv "/save" []
    ([] ++ [pdf_path "/save" sampleGroupConv.name (time_period_name sampleGroupConv),
            json_copy_path "/save" sampleGroupConv.name (time_period_name sampleGroupConv)])
    (group_story sampleGroupConv) (by decide)
    (by unfold group_make_pdf; rw [if_pos (by decide)])

/-! ## C4: invite/create service notices -/

theorem noticeTexts_append (a b : List (Option LayoutBlock)) :
    noticeTexts (a ++ b) = noticeTexts a ++ noticeTexts b :=
  List.filterMap_append a b noticeText

theorem noticeTexts_dateBanner (t : Timestamp) : noticeTexts (dateBanner t) = [] := rfl

theorem noticeTexts_groupMediaText (m : Message) :
    noticeTexts (groupMediaText m) = [] := by
  unfold groupMediaText
  split_ifs <;> rfl

theorem noticeTexts_groupBodyStep (pa : Option String) (m : Message) :
    noticeTexts (groupBodyStep pa m).1 = (serviceNoticeOf m).toList := by
  unfold groupBodyStep groupActorPart serviceNoticeOf
  split_ifs with h1 h2 h3 h4 h5 <;>
    rw [noticeTexts_append, noticeTexts_groupMediaText] <;>
    simp [noticeTexts, noticeText, List.filterMap_cons]

theorem noticeTexts_loopG :
    ∀ (msgs : List Message) (pd pa : Option String),
      noticeTexts (loopG groupBodyStep pd pa msgs) = msgs.filterMap serviceNoticeOf := by
  intro msgs
  induction msgs with
  | nil => intro pd pa; rfl
  | cons m rest ih =>
    intro pd pa
    rw [loopG, noticeTexts_append, noticeTexts_append, noticeTexts_groupBodyStep,
      ih, List.filterMap_cons]
    have hbanner : noticeTexts
        (if some (format_date_inside m.date) = pd then [] else dateBanner m.date) = [] := by
      split_ifs <;> rfl
    rw [hbanner]
    cases h : serviceNoticeOf m <;> simp [h]

/-- C4 (amended).  The service-notice blocks of a Group story are in
one-to-one, order-preserving correspondence with the invite/create and
join-by-link service messages: each invite/create message emits exactly
one notice whose text is the actor upper-cased, the word `invited`, and
the member names joined with `","` left in their original case (the
`.upper()` of line 317 is applied to the separator, a no-op, not to the
member names). -/
theorem c4_notice_blocks (conv : Conversation) :
    noticeTexts (group_story conv) = conv.messages.filterMap serviceNoticeOf := by
  unfold group_story
  rw [noticeTexts_append, noticeTexts_loopG]
  rfl

/-- C4 counterexample.  For the `create_group` message by `"Carol"` with
members `["Dan", "Eve"]` the single emitted notice reads
`"CAROL invited Dan,Eve"`: it contains the actor upper-cased and the raw
member names, but not the upper-cased member name `"DAN"` the claim
requires. -/
theorem c4_invite_counterexample :
    noticeTexts (group_story sampleInviteConv) = ["CAROL invited Dan,Eve"] ∧
      hasSubChars "CAROL".data "CAROL invited Dan,Eve".data = true ∧
      hasSubChars "Dan".data "CAROL invited Dan,Eve".data = true ∧
      hasSubChars "DAN".data "CAROL invited Dan,Eve".data = false ∧
      hasSubChars "EVE".data "CAROL invited Dan,Eve".data = false := by
  refine ⟨?_, by decide, by decide, by decide, by decide⟩
  decide

/-! ## C5: media tags -/

/-- Any block of a message's media/text segment appears in the Group loop
output, whatever the loop state (the segment does not depend on it). -/
theorem mem_loopG_of_mem_mediaText :
    ∀ (msgs : List Message) (pd pa : Option String) (m : Message)
      (b : Option LayoutBlock), m ∈ msgs → b ∈ groupMediaText m →
      b ∈ loopG groupBodyStep pd pa msgs := by
  intro msgs
  induction msgs with
  | nil => intro pd pa m b hm; exact absurd hm (by simp)
  | cons m0 rest ih =>
    intro pd pa m b hm hb
    rw [loopG]
    rcases List.mem_cons.mp hm with heq | htail
    · subst heq
      have : b ∈ (groupBodyStep pa m).1 := by
        unfold groupBodyStep
        exact List.mem_append_right _ hb
      exact List.mem_append_left _ (List.mem_append_right _ this)
    · exact List.mem_append_right _ (ih _ _ m b htail hb)

/-- C5 (amended).  In a Group conversation, a message with a
`photo`/`video`/`audio` attachment key (checked in that precedence order)
emits a message-body block whose text begins with the corresponding
bracketed tag, a space, and then the normalized caption — even when the
caption is empty, in which case a trailing space remains.  The
`media_type` annotation (e.g. `sticker`) plays no role; see the
counterexample. -/
theorem c5_media_tag_blocks (conv : Conversation) (m : Message)
    (hm : m ∈ conv.messages) (hmsg : m.type = "message") :
    (m.hasPhoto = true →
       some (LayoutBlock.actorMessage ("(PHOTO) " ++ check_message (pyStr m.text)))
         ∈ group_story conv) ∧
    (m.hasPhoto = false → m.hasVideo = true →
       some (LayoutBlock.actorMessage ("(VIDEO) " ++ check_message (pyStr m.text)))
         ∈ group_story conv) ∧
    (m.hasPhoto = false → m.hasVideo = false → m.hasAudio = true →
       some (LayoutBlock.actorMessage ("(AUDIO) " ++ check_message (pyStr m.text)))
         ∈ group_story conv) := by
  have hclean : ∀ tag : String, (∀ c ∈ tag.data, c ≠ '\n') →
      (∀ c ∈ tag.data, isEmojiChar c = false) →
      check_message (tag ++ pyStr m.text) = tag ++ check_message (pyStr m.text) := by
    intro tag h1 h2
    rw [check_message_append, check_message_clean h1 h2]
  have hstory : ∀ b : Option LayoutBlock, b ∈ groupMediaText m → b ∈ group_story conv := by
    intro b hb
    unfold group_story
    exact List.mem_append_right _ (mem_loopG_of_mem_mediaText _ _ _ m b hm hb)
  refine ⟨fun hp => ?_, fun hp hv => ?_, fun hp hv ha => ?_⟩
  · rw [← hclean "(PHOTO) " (by decide) (by decide)]
    apply hstory
    unfold groupMediaText
    rw [if_pos hmsg, if_pos hp]
    simp
  · rw [← hclean "(VIDEO) " (by decide) (by decide)]
    apply hstory
    unfold groupMediaText
    rw [if_pos hmsg, if_neg (by simp [hp]), if_pos hv]
    simp
  · rw [← hclean "(AUDIO) " (by decide) (by decide)]
    apply hstory
    unfold groupMediaText
    rw [if_pos hmsg, if_neg (by simp [hp]), if_neg (by simp [hv]), if_pos ha]
    simp

/-- Witness for the amended C5: the photo message with caption `"cat"`
puts a `"(PHOTO) cat"` body into the story. -/
theorem c5_media_tag_blocks_witness :
    some (LayoutBlock.actorMessage ("(PHOTO) " ++ check_message (pyStr (.plain "cat"))))
      ∈ group_story samplePhotoConv :=
  (c5_media_tag_blocks samplePhotoConv
      { date := ⟨2021, 3, 5, 36000⟩, type := "message", fromField := some "Ann",
        text := .plain "cat", hasPhoto := true }
      (by decide) rfl).1 rfl

/-- C5 counterexample.  The sticker message (`media_type = "sticker"`, no
attachment key, empty caption) emits a body block whose text is the empty
string, and no block of the story begins with the sticker placeholder
`"(STICKER)"` — the claim fails for media annotations carried by
`media_type`. -/
theorem c5_sticker_counterexample :
    (∃ m ∈ sampleStickerConv.messages,
       m.media_type = some "sticker" ∧ contentText m.text = "" ∧
       m.hasPhoto = false ∧ m.hasVideo = false ∧ m.hasAudio = false) ∧
    some (LayoutBlock.actorMessage "") ∈ group_story sampleStickerConv ∧
    (group_story sampleStickerConv).all
      (fun b =>
        match b with
        | some (LayoutBlock.actorMessage t) => !beginsWithChars "(STICKER)".data t.data
        | some (LayoutBlock.messageBody _ t) => !beginsWithChars "(STICKER)".data t.data
        | _ => true) = true := by
  refine ⟨by decide, by decide, by decide⟩

/-! ## C7: actor-header deduplication -/

theorem headerTexts_append (a b : List (Option LayoutBlock)) :
    headerTexts (a ++ b) = headerTexts a ++ headerTexts b :=
  List.filterMap_append a b headerText

theorem headerTexts_groupMediaText (m : Message) :
    headerTexts (groupMediaText m) = [] := by
  unfold groupMediaText
  split_ifs <;> rfl

theorem headerTexts_banner (t : Timestamp) (pd : Option String) :
    headerTexts (if some (format_date_inside t) = pd then [] else dateBanner t) = [] := by
  split_ifs <;> rfl

/-- C7 counterexample.  The two `pin_message` service events by the raw
actors `"a"` and `"A"` both pass the `previous_actor` comparison (the raw
strings differ), yet both render to the header text `"A"`: the story
contains two physically adjacent `actorHeader` blocks naming the same
actor. -/
theorem c7_adjacent_headers_counterexample :
    headerTexts (group_story sampleCaseCollisionConv) = ["A", "A"] ∧
      (group_story sampleCaseCollisionConv)[8]? =
        some (some (LayoutBlock.actorHeader "A")) ∧
      (group_story sampleCaseCollisionConv)[9]? =
        some (some (LayoutBlock.actorHeader "A")) ∧
      ¬ List.Chain' (fun x y => x ≠ y) (headerTexts (group_story sampleCaseCollisionConv)) ∧
      (sampleCaseCollisionConv.messages.map Message.actor) = [some "a", some "A"] := by
  refine ⟨by decide, by decide, by decide, ?_, by decide⟩
  intro h
  rw [show headerTexts (group_story sampleCaseCollisionConv) = ["A", "A"] from by decide] at h
  exact (List.chain'_cons.mp h).1 rfl

/-- The invariant of the Group loop behind the header-suppression logic:
with an injective rendering on the candidate domain `D`, the emitted
header texts never repeat adjacently, and the first of them differs from
the rendering of the actor held in `previous_actor`. -/
theorem headerTexts_loopG_chain :
    ∀ (msgs : List Message) (D : List String) (pd pa : Option String),
      (∀ a1 ∈ D, ∀ a2 ∈ D, renderHeader a1 = renderHeader a2 → a1 = a2) →
      (∀ m ∈ msgs, headerCandidate m ∈ D) →
      (∀ m ∈ msgs, m.actor.isSome = true ∨ m.fromField.isSome = true) →
      (∀ p, pa = some p → p ∈ D) →
      List.Chain' (fun x y => x ≠ y) (headerTexts (loopG groupBodyStep pd pa msgs)) ∧
      (∀ p, pa = some p →
        ∀ t, (headerTexts (loopG groupBodyStep pd pa msgs)).head? = some t →
          t ≠ renderHeader p) := by
  intro msgs
  induction msgs with
  | nil =>
    intro D pd pa hinj hcand hres hpa
    exact ⟨List.chain'_nil, by intro p hp t ht; exact absurd ht (by simp [headerTexts, loopG])⟩
  | cons m rest ih =>
    intro D pd pa hinj hcand hres hpa
    have hcand0 : headerCandidate m ∈ D := hcand m (by simp)
    have hcandR : ∀ m2 ∈ rest, headerCandidate m2 ∈ D :=
      fun m2 hm2 => hcand m2 (by simp [hm2])
    have hresR : ∀ m2 ∈ rest, m2.actor.isSome = true ∨ m2.fromField.isSome = true :=
      fun m2 hm2 => hres m2 (by simp [hm2])
    rw [loopG, headerTexts_append, headerTexts_append, headerTexts_banner,
      List.nil_append]
    by_cases h1 : m.type = "service" ∧
        (m.action = some "invite_members" ∨ m.action = some "create_group")
    · have hstep : groupBodyStep pa m =
          ((groupActorPart pa m).1 ++ groupMediaText m, pa) := by
        unfold groupBodyStep groupActorPart
        rw [if_pos h1]
      have hparts : headerTexts (groupBodyStep pa m).1 = [] := by
        rw [hstep]
        simp only [headerTexts_append, headerTexts_groupMediaText]
        unfold groupActorPart
        rw [if_pos h1]
        rfl
      rw [hparts, hstep, List.nil_append]
      exact ih D _ pa hinj hcandR hresR hpa
    · by_cases h2 : m.type = "service" ∧ m.action = some "join_group_by_link"
      · have hstep : groupBodyStep pa m =
            ((groupActorPart pa m).1 ++ groupMediaText m, pa) := by
          unfold groupBodyStep groupActorPart
          rw [if_neg h1, if_pos h2]
        have hparts : headerTexts (groupBodyStep pa m).1 = [] := by
          rw [hstep]
          simp only [headerTexts_append, headerTexts_groupMediaText]
          unfold groupActorPart
          rw [if_neg h1, if_pos h2]
          rfl
        rw [hparts, hstep, List.nil_append]
        exact ih D _ pa hinj hcandR hresR hpa
      · -- ordinary header handling: the acting participant is the actor
        -- key when present, else the from key
        rcases hact : m.actor with _ | a
        · -- branch on the `from` key
          have hfrom : m.fromField.isSome = true := by
            rcases hres m (by simp) with h | h
            · rw [hact] at h; exact absurd h (by simp)
            · exact h
          rcases hf : m.fromField with _ | f
          · rw [hf] at hfrom; exact absurd hfrom (by simp)
          have hcf : headerCandidate m = f := by
            unfold headerCandidate
            rw [hact, hf]
            rfl
          by_cases hne : m.fromField ≠ pa
          · have hstep : groupBodyStep pa m =
                ([some (LayoutBlock.actorHeader (renderHeader f))] ++ groupMediaText m,
                 some f) := by
              unfold groupBodyStep groupActorPart
              rw [if_neg h1, if_neg h2, if_neg (by simp [hact]), if_pos hne, hf]
              rfl
            rw [hstep]
            simp only [headerTexts_append, headerTexts_groupMediaText, List.append_nil]
            obtain ⟨ihchain, ihhead⟩ := ih D (some (format_date_inside m.date)) (some f)
              hinj hcandR hresR
              (fun p hp => by rw [hcf] at hcand0; injection hp with hp2; rw [← hp2]; exact hcand0)
            constructor
            · rw [show headerTexts [some (LayoutBlock.actorHeader (renderHeader f))] =
                  [renderHeader f] from rfl, List.singleton_append]
              rw [List.chain'_cons']
              exact ⟨fun b hb => (ihhead f rfl b hb).symm, ihchain⟩
            · intro p hp t ht
              rw [show headerTexts [some (LayoutBlock.actorHeader (renderHeader f))] =
                  [renderHeader f] from rfl, List.singleton_append, List.head?_cons] at ht
              injection ht with ht2
              subst ht2
              intro hcontra
              have hfp : f = p := by
                apply hinj f (hcf ▸ hcand0) p (hpa p hp) hcontra
              apply hne
              rw [hf, hp, hfp]
          · have hstep : groupBodyStep pa m = ([] ++ groupMediaText m, pa) := by
              unfold groupBodyStep groupActorPart
              rw [if_neg h1, if_neg h2, if_neg (by simp [hact]), if_neg hne]
            rw [hstep]
            simp only [headerTexts_append, headerTexts_groupMediaText, List.append_nil]
            rw [show headerTexts ([] : List (Option LayoutBlock)) = [] from rfl,
              List.nil_append]
            exact ih D _ pa hinj hcandR hresR hpa
        · -- branch on the `actor` key
          have hca : headerCandidate m = a := by
            unfold headerCandidate
            rw [hact]
            rfl
          by_cases hne : m.actor ≠ pa
          · have hstep : groupBodyStep pa m =
                ([some (LayoutBlock.actorHeader (renderHeader a))] ++ groupMediaText m,
                 some a) := by
              unfold groupBodyStep groupActorPart
              rw [if_neg h1, if_neg h2, if_pos (by simp [hact]), if_pos hne, hact]
              rfl
            rw [hstep]
            simp only [headerTexts_append, headerTexts_groupMediaText, List.append_nil]
            obtain ⟨ihchain, ihhead⟩ := ih D (some (format_date_inside m.date)) (some a)
              hinj hcandR hresR
              (fun p hp => by rw [hca] at hcand0; injection hp with hp2; rw [← hp2]; exact hcand0)
            constructor
            · rw [show headerTexts [some (LayoutBlock.actorHeader (renderHeader a))] =
                  [renderHeader a] from rfl, List.singleton_append]
              rw [List.chain'_cons']
              exact ⟨fun b hb => (ihhead a rfl b hb).symm, ihchain⟩
            · intro p hp t ht
              rw [show headerTexts [some (LayoutBlock.actorHeader (renderHeader a))] =
                  [renderHeader a] from rfl, List.singleton_append, List.head?_cons] at ht
              injection ht with ht2
              subst ht2
              intro hcontra
              have hap : a = p := by
                apply hinj a (hca ▸ hcand0) p (hpa p hp) hcontra
              apply hne
              rw [hact, hp, hap]
          · have hstep : groupBodyStep pa m = ([] ++ groupMediaText m, pa) := by
              unfold groupBodyStep groupActorPart
              rw [if_neg h1, if_neg h2, if_pos (by simp [hact]), if_neg hne]
            rw [hstep]
            simp only [headerTexts_append, headerTexts_groupMediaText, List.append_nil]
            rw [show headerTexts ([] : List (Option LayoutBlock)) = [] from rfl,
              List.nil_append]
            exact ih D _ pa hinj hcandR hresR hpa

/-- C7 (amended).  In a Group story, no two consecutive `ActorHeader`
blocks name the same actor, provided every message has a resolvable
acting participant and distinct raw participant names have distinct
rendered header texts.  (The suppression compares the raw field values
while the blocks display `check_message(name.upper())`, so distinct raw
actors such as `"a"` and `"A"` can otherwise produce consecutive
identical headers; see the counterexample.) -/
theorem c7_actor_header_no_adjacent_repeat (conv : Conversation)
    (hres : ∀ m ∈ conv.messages, m.actor.isSome = true ∨ m.fromField.isSome = true)
    (hinj : ∀ a1 ∈ conv.messages.map headerCandidate,
        ∀ a2 ∈ conv.messages.map headerCandidate,
        renderHeader a1 = renderHeader a2 → a1 = a2) :
    List.Chain' (fun x y => x ≠ y) (headerTexts (group_story conv)) := by
  have h := headerTexts_loopG_chain conv.messages (conv.messages.map headerCandidate)
    none none hinj (fun m hm => List.mem_map_of_mem headerCandidate hm) hres
    (fun p hp => by exact absurd hp (by simp))
  unfold group_story
  rw [headerTexts_append]
  exact h.1

/-- Witness for the amended C7: two distinctly rendered actors produce
the header sequence `["ANN", "BOB"]`, with no adjacent repetition. -/
theorem c7_actor_header_no_adjacent_repeat_witness :
    List.Chain' (fun x y => x ≠ y) (headerTexts (group_story sampleTwoActorConv)) :=
  c7_actor_header_no_adjacent_repeat sampleTwoActorConv (by decide) (by decide)

/-! ## C3: role tags in Personal conversations -/

theorem choose_role_tag_eq (convName messageText name : String) :
    choose_role_tag convName messageText name =
      LayoutBlock.messageBody
        (if name = convName then RoleTag.partnerTag else RoleTag.selfTag) messageText := by
  unfold choose_role_tag
  split_ifs <;> rfl

/-- Every block of the Personal loop output is a date-banner item or a
body item of one of the messages. -/
theorem mem_personal_loopG :
    ∀ (msgs : List Message) (convName : String) (pd : Option String) (s : Unit)
      (b : Option LayoutBlock), b ∈ loopG (personalBodyStep convName) pd s msgs →
      (∃ m ∈ msgs, b ∈ dateBanner m.date) ∨ (∃ m ∈ msgs, b ∈ personalBody convName m) := by
  intro msgs
  induction msgs with
  | nil => intro convName pd s b hb; exact absurd hb (by simp [loopG])
  | cons m rest ih =>
    intro convName pd s b hb
    rw [loopG] at hb
    rcases List.mem_append.mp hb with hb1 | hb2
    · rcases List.mem_append.mp hb1 with hbanner | hbody
      · by_cases hc : some (format_date_inside m.date) = pd
        · rw [if_pos hc] at hbanner; exact absurd hbanner (by simp)
        · rw [if_neg hc] at hbanner
          exact Or.inl ⟨m, by simp, hbanner⟩
      · exact Or.inr ⟨m, by simp, hbody⟩
    · rcases ih convName _ _ b hb2 with ⟨m2, hm2, hmem⟩ | ⟨m2, hm2, hmem⟩
      · exact Or.inl ⟨m2, by simp [hm2], hmem⟩
      · exact Or.inr ⟨m2, by simp [hm2], hmem⟩

/-- Every body item of a message appears in the Personal loop output (the
Personal body carries no state). -/
theorem mem_loopG_of_mem_personalBody :
    ∀ (msgs : List Message) (convName : String) (pd : Option String) (s : Unit)
      (m : Message) (b : Option LayoutBlock), m ∈ msgs → b ∈ personalBody convName m →
      b ∈ loopG (personalBodyStep convName) pd s msgs := by
  intro msgs
  induction msgs with
  | nil => intro convName pd s m b hm; exact absurd hm (by simp)
  | cons m0 rest ih =>
    intro convName pd s m b hm hb
    rw [loopG]
    rcases List.mem_cons.mp hm with heq | htail
    · subst heq
      exact List.mem_append_left _ (List.mem_append_right _ hb)
    · exact List.mem_append_right _ (ih convName _ _ m b htail hb)

/-- C3 (confirmed).  In a Personal story, every `MessageBody` block gets
its role tag as the deterministic function of the block's sender and the
conversation name — sender equal to the name yields the partner tag,
anything else the self tag: each body block arises from a message either
as the `(CALL)` placeholder tagged by the `actor` field or as the
normalized text tagged by the resolved sender (`from`, else `actor`);
and conversely every message contributes its role-tagged normalized text
to the story. -/
theorem c3_personal_role_tag (conv : Conversation) :
    (∀ b ∈ personal_story conv, ∀ tag text, b = some (LayoutBlock.messageBody tag text) →
      ∃ m ∈ conv.messages,
        (m.type = "service" ∧ m.action = some "phone_call" ∧ text = "(CALL)" ∧
          tag = (if m.actor.getD "" = conv.name then RoleTag.partnerTag else RoleTag.selfTag))
        ∨ (text = check_message (contentText m.text) ∧
          tag = (if resolve_sender m = conv.name then RoleTag.partnerTag else RoleTag.selfTag))) ∧
    (∀ m ∈ conv.messages,
      some (LayoutBlock.messageBody
          (if resolve_sender m = conv.name then RoleTag.partnerTag else RoleTag.selfTag)
          (check_message (contentText m.text))) ∈ personal_story conv) := by
  constructor
  · intro b hb tag text hbody
    subst hbody
    unfold personal_story at hb
    rcases List.mem_append.mp hb with hhead | hloop
    · exact absurd hhead (by simp)
    · rcases mem_personal_loopG conv.messages conv.name none () _ hloop with
        ⟨m, hm, hmem⟩ | ⟨m, hm, hmem⟩
      · exact absurd hmem (by simp [dateBanner])
      · refine ⟨m, hm, ?_⟩
        unfold personalBody at hmem
        rcases List.mem_append.mp hmem with hcall | htext
        · by_cases hc : m.type = "service" ∧ m.action = some "phone_call"
          · rw [if_pos hc] at hcall
            rw [choose_role_tag_eq] at hcall
            rcases List.mem_singleton.mp hcall with heq
            injection heq with heq2
            injection heq2 with ht hx
            exact Or.inl ⟨hc.1, hc.2, hx, ht⟩
          · rw [if_neg hc] at hcall
            exact absurd hcall (by simp)
        · rw [choose_role_tag_eq] at htext
          rcases List.mem_singleton.mp htext with heq
          injection heq with heq2
          injection heq2 with ht hx
          exact Or.inr ⟨hx, ht⟩
  · intro m hm
    unfold personal_story
    apply List.mem_append_right
    apply mem_loopG_of_mem_personalBody conv.messages conv.name none () m _ hm
    unfold personalBody
    apply List.mem_append_right
    rw [choose_role_tag_eq]
    exact List.mem_singleton.mpr rfl

/-! ## C1: date separators, support lemmas -/

theorem tsLe_refl (t : Timestamp) : tsLe t t := by
  unfold tsLe; omega

theorem format_date_inside_congr {a b : Timestamp}
    (h : dayTriple a = dayTriple b) : format_date_inside a = format_date_inside b := by
  unfold dayTriple at h
  simp only [Prod.mk.injEq] at h
  unfold format_date_inside
  rw [h.1, h.2.1, h.2.2]

theorem sepTexts_append (a b : List (Option LayoutBlock)) :
    sepTexts (a ++ b) = sepTexts a ++ sepTexts b :=
  List.filterMap_append a b sepText

theorem sepTexts_dateBanner (t : Timestamp) :
    sepTexts (dateBanner t) = ["— " ++ format_date_inside t ++ " —"] := rfl

theorem sepTexts_personalBody (convName : String) (m : Message) :
    sepTexts (personalBody convName m) = [] := by
  unfold personalBody choose_role_tag
  split_ifs <;> rfl

theorem sepTexts_groupMediaText (m : Message) :
    sepTexts (groupMediaText m) = [] := by
  unfold groupMediaText
  split_ifs <;> rfl

theorem sepTexts_groupBodyStep (pa : Option String) (m : Message) :
    sepTexts (groupBodyStep pa m).1 = [] := by
  unfold groupBodyStep
  rw [sepTexts_append, sepTexts_groupMediaText]
  unfold groupActorPart
  split_ifs <;> rfl

/-- Membership in `firstOccAux`: the values of the list not yet seen,
each exactly once. -/
theorem firstOccAux_nodup_mem {α : Type} [DecidableEq α] :
    ∀ (l seen : List α),
      (firstOccAux seen l).Nodup ∧
      (∀ x, x ∈ firstOccAux seen l ↔ x ∈ l ∧ x ∉ seen) := by
  intro l
  induction l with
  | nil => intro seen; exact ⟨List.nodup_nil, by simp [firstOccAux]⟩
  | cons a l ih =>
    intro seen
    rw [firstOccAux]
    by_cases ha : a ∈ seen
    · rw [if_pos ha]
      refine ⟨(ih (a :: seen)).1, fun x => ?_⟩
      rw [(ih (a :: seen)).2 x]
      constructor
      · rintro ⟨h1, h2⟩
        exact ⟨by simp [h1], fun hx => h2 (by simp [hx])⟩
      · rintro ⟨h1, h2⟩
        rcases List.mem_cons.mp h1 with rfl | h1
        · exact absurd ha h2
        · refine ⟨h1, fun hx => ?_⟩
          rcases List.mem_cons.mp hx with rfl | hx
          · exact h2 ha
          · exact h2 hx
    · rw [if_neg ha]
      constructor
      · rw [List.nodup_cons]
        refine ⟨fun hmem => ?_, (ih (a :: seen)).1⟩
        exact absurd ((ih (a :: seen)).2 a |>.mp hmem).2 (by simp)
      · intro x
        rw [List.mem_cons, (ih (a :: seen)).2 x]
        constructor
        · rintro (rfl | ⟨h1, h2⟩)
          · exact ⟨by simp, ha⟩
          · exact ⟨by simp [h1], fun hx => h2 (by simp [hx])⟩
        · rintro ⟨h1, h2⟩
          rcases List.mem_cons.mp h1 with rfl | h1
          · exact Or.inl rfl
          · by_cases hxa : x = a
            · exact Or.inl hxa
            · exact Or.inr ⟨h1, by simp [hxa, h2]⟩

theorem firstOcc_nodup {α : Type} [DecidableEq α] (l : List α) :
    (firstOcc l).Nodup := (firstOccAux_nodup_mem l []).1

theorem mem_firstOcc {α : Type} [DecidableEq α] (l : List α) (x : α) :
    x ∈ firstOcc l ↔ x ∈ l := by
  rw [firstOcc, (firstOccAux_nodup_mem l []).2 x]
  simp

/-- The number of distinct values in first-occurrence order equals the
number `dedup` reports. -/
theorem firstOcc_length_eq_dedup_length {α : Type} [DecidableEq α] (l : List α) :
    (firstOcc l).length = l.dedup.length := by
  have h1 : (firstOcc l).toFinset = l.toFinset :=
    List.toFinset.ext_iff.mpr fun x => mem_firstOcc l x
  have h2 : l.dedup.toFinset = l.toFinset :=
    List.toFinset.ext_iff.mpr fun x => List.mem_dedup
  calc (firstOcc l).length = (firstOcc l).toFinset.card :=
        (List.toFinset_card_of_nodup (firstOcc_nodup l)).symm
    _ = l.toFinset.card := by rw [h1]
    _ = l.dedup.toFinset.card := by rw [h2]
    _ = l.dedup.length := List.toFinset_card_of_nodup l.nodup_dedup

/-- The heart of C1.  On chronologically ordered, calendar-valid input
the `previous_date` comparison of the loops coincides with the
first-occurrence policy of the spec: a message's day-label equals the
previous message's day-label exactly when it occurred among the earlier
messages.  `seenM` is the list of already-processed messages and `pm`
the one `previous_date` was taken from. -/
theorem loopG_eq_loopFirstOcc {σ : Type}
    (body : σ → Message → List (Option LayoutBlock) × σ) :
    ∀ (msgs seenM : List Message) (pm : Option Message) (s : σ),
      (∀ m ∈ seenM ++ msgs, validDate m.date) →
      (∀ a ∈ seenM, ∀ b ∈ msgs, tsLe a.date b.date) →
      List.Pairwise (fun a b => tsLe a.date b.date) msgs →
      (match pm with
       | none => seenM = []
       | some p => p ∈ seenM ∧ ∀ a ∈ seenM, tsLe a.date p.date) →
      loopG body (pm.map fun p => format_date_inside p.date) s msgs =
        loopFirstOcc body (seenM.map fun p => format_date_inside p.date) s msgs := by
  intro msgs
  induction msgs with
  | nil => intro seenM pm s _ _ _ _; rfl
  | cons m rest ih =>
    intro seenM pm s hv hord hsort hpm
    rw [loopG, loopFirstOcc]
    have hcond : (some (format_date_inside m.date) =
        pm.map fun p => format_date_inside p.date) ↔
        (format_date_inside m.date ∈ seenM.map fun p => format_date_inside p.date) := by
      constructor
      · intro h
        rcases pm with _ | p
        · exact Option.noConfusion h
        · have h2 : format_date_inside m.date = format_date_inside p.date :=
            Option.some.inj h
          exact List.mem_map.mpr ⟨p, hpm.1, h2.symm⟩
      · intro h
        rcases List.mem_map.mp h with ⟨a, ha, hlbl⟩
        rcases pm with _ | p
        · rw [hpm] at ha; exact absurd ha (List.not_mem_nil a)
        · obtain ⟨hpmem, hple⟩ := hpm
          have hva : validDate a.date := hv a (by simp [ha])
          have hvm : validDate m.date := hv m (by simp)
          have hday : dayTriple a.date = dayTriple m.date :=
            format_date_inside_injective hva hvm hlbl
          have hap : tsLe a.date p.date := hple a ha
          have hpmle : tsLe p.date m.date := hord p hpmem m (by simp)
          have hd : dayTriple p.date = dayTriple m.date :=
            dayTriple_sandwich hap hpmle hday
          exact congrArg some (format_date_inside_congr hd).symm
    have hrec := ih (m :: seenM) (some m) (body s m).2
      (by
        intro x hx
        apply hv
        rcases List.mem_append.mp hx with hx1 | hx2
        · rcases List.mem_cons.mp hx1 with rfl | hx1
          · simp
          · simp [hx1]
        · simp [hx2])
      (by
        intro a ha b hb
        rcases List.mem_cons.mp ha with rfl | ha
        · exact (List.pairwise_cons.mp hsort).1 b hb
        · exact hord a ha b (by simp [hb]))
      (List.pairwise_cons.mp hsort).2
      (by
        refine ⟨by simp, fun a ha => ?_⟩
        rcases List.mem_cons.mp ha with rfl | ha
        · exact tsLe_refl a.date
        · exact hord a ha m (by simp))
    have hrec2 : loopG body (some (format_date_inside m.date)) (body s m).2 rest =
        loopFirstOcc body (format_date_inside m.date ::
          (seenM.map fun p => format_date_inside p.date)) (body s m).2 rest := hrec
    by_cases hc : some (format_date_inside m.date) =
        pm.map fun p => format_date_inside p.date
    · rw [if_pos hc, if_pos (hcond.mp hc), hrec2]
    · rw [if_neg hc, if_neg (fun h => hc (hcond.mpr h)), hrec2]

/-- The separator texts of the first-occurrence loop are exactly the
distinct day-labels in first-occurrence order, each wrapped in the em
dashes of the date line (given that the body emits no separators). -/
theorem sepTexts_loopFirstOcc {σ : Type}
    (body : σ → Message → List (Option LayoutBlock) × σ)
    (hbody : ∀ s m, sepTexts (body s m).1 = []) :
    ∀ (msgs : List Message) (seen : List String) (s : σ),
      sepTexts (loopFirstOcc body seen s msgs) =
        (firstOccAux seen (msgs.map fun m => format_date_inside m.date)).map
          (fun l => "— " ++ l ++ " —") := by
  intro msgs
  induction msgs with
  | nil => intro seen s; rfl
  | cons m rest ih =>
    intro seen s
    rw [loopFirstOcc, sepTexts_append, sepTexts_append, hbody,
      List.map_cons, firstOccAux]
    by_cases hc : format_date_inside m.date ∈ seen
    · rw [if_pos hc, if_pos hc, ih]
      rfl
    · rw [if_neg hc, if_neg hc, sepTexts_dateBanner, ih]
      rfl


/-- Wrapping a label in the em dashes of the date line is injective. -/
theorem dateWrap_injective {a b : String}
    (h : "— " ++ a ++ " —" = "— " ++ b ++ " —") : a = b := by
  have hdata := congrArg String.data h
  simp only [String.data_append, List.append_assoc] at hdata
  have h2 : a.data ++ (" —" : String).data = b.data ++ (" —" : String).data :=
    List.append_cancel_left hdata
  have h3 : a.data = b.data := List.append_cancel_right h2
  exact congrArg String.mk h3

/-- C1 (confirmed).  For every valid conversation in chronological order,
both layout loops behave exactly like the first-occurrence policy: the
date banner (and hence the single `DateSeparator` it contains) is emitted
exactly at the first message of each distinct day-label, immediately
before that message's blocks; the separator texts are the distinct
day-labels in first-occurrence order (wrapped in the em dashes of the
date line); they carry no duplicates; and their number equals the number
of distinct day-labels across the messages. -/
theorem c1_date_separator_first_occurrence (conv : Conversation)
    (hv : validConversation conv) (hs : chronological conv.messages) :
    loopG (personalBodyStep conv.name) none () conv.messages =
      loopFirstOcc (personalBodyStep conv.name) [] () conv.messages ∧
    loopG groupBodyStep none none conv.messages =
      loopFirstOcc groupBodyStep [] none conv.messages ∧
    sepTexts (personal_story conv) =
      (firstOcc (conv.messages.map fun m => format_date_inside m.date)).map
        (fun l => "— " ++ l ++ " —") ∧
    sepTexts (group_story conv) =
      (firstOcc (conv.messages.map fun m => format_date_inside m.date)).map
        (fun l => "— " ++ l ++ " —") ∧
    (sepTexts (personal_story conv)).Nodup ∧
    (sepTexts (personal_story conv)).length =
      ((conv.messages.map fun m => format_date_inside m.date).dedup).length := by
  obtain ⟨hne, hvd⟩ := hv
  have hstructP : loopG (personalBodyStep conv.name) none () conv.messages =
      loopFirstOcc (personalBodyStep conv.name) [] () conv.messages :=
    loopG_eq_loopFirstOcc (personalBodyStep conv.name)
      conv.messages [] none ()
      (fun m hm => hvd m (by simpa using hm))
      (fun a ha => absurd ha (List.not_mem_nil a))
      hs rfl
  have hstructG : loopG groupBodyStep none none conv.messages =
      loopFirstOcc groupBodyStep [] none conv.messages :=
    loopG_eq_loopFirstOcc groupBodyStep
      conv.messages [] none none
      (fun m hm => hvd m (by simpa using hm))
      (fun a ha => absurd ha (List.not_mem_nil a))
      hs rfl
  have hp : sepTexts (personal_story conv) =
      sepTexts (loopG (personalBodyStep conv.name) none () conv.messages) := by
    unfold personal_story
    rw [sepTexts_append]
    rfl
  have hg : sepTexts (group_story conv) =
      sepTexts (loopG groupBodyStep none none conv.messages) := by
    unfold group_story
    rw [sepTexts_append]
    rfl
  have hsepP : sepTexts (personal_story conv) =
      (firstOcc (conv.messages.map fun m => format_date_inside m.date)).map
        (fun l => "— " ++ l ++ " —") := by
    rw [hp, hstructP,
      sepTexts_loopFirstOcc (personalBodyStep conv.name)
        (fun s m => sepTexts_personalBody conv.name m)]
    rfl
  have hsepG : sepTexts (group_story conv) =
      (firstOcc (conv.messages.map fun m => format_date_inside m.date)).map
        (fun l => "— " ++ l ++ " —") := by
    rw [hg, hstructG,
      sepTexts_loopFirstOcc groupBodyStep (fun s m => sepTexts_groupBodyStep s m)]
    rfl
  refine ⟨hstructP, hstructG, hsepP, hsepG, ?_, ?_⟩
  · rw [hsepP]
    exact (firstOcc_nodup _).map fun a b hab => dateWrap_injective hab
  · rw [hsepP, List.length_map, firstOcc_length_eq_dedup_length]

/-- Witness for C1 at the two-day sample conversation: the separator
texts of the personal story are the two day-labels, each once, in order
of first appearance. -/
theorem c1_date_separator_first_occurrence_witness :
    sepTexts (personal_story sampleTwoDayConv) =
      (firstOcc (sampleTwoDayConv.messages.map fun m => format_date_inside m.date)).map
        (fun l => "— " ++ l ++ " —") :=
  (c1_date_separator_first_occurrence sampleTwoDayConv (by decide) (by decide)).2.2.1

/-- Witness for C3: in the conversation named `"Bob"`, the body block of
the message sent by `"Alice"` carries the self tag, and its provenance is
certified by applying the main theorem at that concrete block. -/
theorem c3_personal_role_tag_witness :
    ∃ m ∈ samplePersonalConv.messages,
      (m.type = "service" ∧ m.action = some "phone_call" ∧ "hi" = "(CALL)" ∧
        RoleTag.selfTag =
          (if m.actor.getD "" = samplePersonalConv.name
           then RoleTag.partnerTag else RoleTag.selfTag))
      ∨ ("hi" = check_message (contentText m.text) ∧
        RoleTag.selfTag =
          (if resolve_sender m = samplePersonalConv.name
           then RoleTag.partnerTag else RoleTag.selfTag)) :=
  (c3_personal_role_tag samplePersonalConv).1
    (some (LayoutBlock.messageBody RoleTag.selfTag "hi")) (by decide)
    RoleTag.selfTag "hi" rfl

end JsonToPdf

